import Mathlib

/-!
Verification of the incremental answer-stream protocol of the chat frontend.

The definitions below are a shallow embedding of the stream-consuming code in
`frontend/src/views/Chat.vue`: the `handleSend` event loop (new turn), the
`reconnectStream` event loop (resumed turn), and the per-chunk line splitting
both loops perform on the network stream.  Reactive refs of the component
become fields of an explicit state record; the `currentSection` local variable
(whose only observed field after creation is `.step`) becomes an optional step
string; JavaScript truthiness tests on optional strings are modelled
explicitly.  `JSON.parse` together with the event-shape dispatch is abstracted
as a decode function `String → Option Event`, exactly the boundary the code
gives it (a thrown parse error becomes `none`).
-/

namespace ChatStream

/-- One log line of a section: `{content, source}` as pushed by the `log`
event handler. -/
structure LogEntry where
  content : String
  source : Option String
deriving DecidableEq

/-- One result block of a section: `{content, data}`; `data` is an opaque
JSON payload, modelled as an optional string. -/
structure ResultEntry where
  content : String
  data : Option String
deriving DecidableEq

/-- A workflow section as created by `section_start` (and the two synthetic
sections): `{step, title, collapsible, collapsed, logs, results, summary}`. -/
structure Section where
  step : String
  title : String
  collapsible : Bool
  collapsed : Bool
  logs : List LogEntry
  results : List ResultEntry
  summary : String
deriving DecidableEq

/-- The request mode chosen by `handleSend` before opening the stream. -/
inductive Mode where
  | normal
  | attachment
  | multi_source
deriving DecidableEq

/-- The decoded stream events, one variant per `data.type` the handlers test
for.  Optional payload fields are `Option`; `is_incremental` is kept as the
boolean the handler's truthiness test reduces it to. -/
inductive Event where
  | section_start (step : String) (title : String) (collapsible : Option Bool)
  | section_end
  | log (content : String) (source : Option String) (step : Option String)
        (newline : Option Bool)
  | result (content : Option String) (data : Option String)
           (summary : Option String) (step : Option String)
           (is_incremental : Bool)
  | token (content : String)
  | done
  | error (content : String)
  | title_updated (conversation_id : Nat) (title : String)
  | unknown
deriving DecidableEq

/-- The component state driving one turn: the reactive refs
`workflowSections`, `simpleResponse`, `isWorkflowMode`, `workflowDone`,
`isAITyping`, plus the loop-local `currentSection` pointer reduced to its
step. -/
structure ChatState where
  workflowSections : List Section
  simpleResponse : String
  isWorkflowMode : Bool
  currentSection : Option String
  workflowDone : Bool
  isAITyping : Bool
deriving DecidableEq

/-- `workflowSections.findIndex(s => s.step === st) !== -1`. -/
def hasStep (ss : List Section) (st : String) : Bool :=
  ss.any (fun s => decide (s.step = st))

/-- `const idx = findIndex(s => s.step === st); if (idx !== -1) arr[idx] = f(arr[idx])`:
rewrite the first section whose `step` is `st`, leave the list unchanged when
there is none. -/
def applyAtFirstStep (st : String) (f : Section → Section) :
    List Section → List Section
  | [] => []
  | s :: rest =>
      if s.step = st then f s :: rest else s :: applyAtFirstStep st f rest

/-- Rewrite the last element of a list (no-op on `[]`), as the handlers do
with `arr[arr.length - 1] = ...`. -/
def updateLast (f : α → α) : List α → List α
  | [] => []
  | [a] => [f a]
  | a :: b :: rest => a :: updateLast f (b :: rest)

/-- Rewrite the head of a list (no-op on `[]`), as the token handler does
with `updatedResults[0] = ...`. -/
def updateHead (f : α → α) : List α → List α
  | [] => []
  | a :: rest => f a :: rest

/-- JavaScript truthiness of an optional string field (`if (data.step)`,
`if (data.summary)`): present and non-empty. -/
def truthy : Option String → Bool
  | some s => decide (s ≠ "")
  | none => false

/-- `if (!targetSection && data.step) { findIndex(s => s.step === data.step) ... }`:
the step-based fallback lookup shared by the `log` and `result` handlers. -/
def resolveByStep (ss : List Section) (stp : Option String) : Option String :=
  match stp with
  | some st => if st ≠ "" ∧ hasStep ss st = true then some st else none
  | none => none

/-- Target resolution of the `log` handler: the open section, else the
`attachment_processing` section when `source === 'attachment'`, else the
section matching `data.step`. -/
def resolveLogStep (doc : ChatState) (src stp : Option String) : Option String :=
  match doc.currentSection with
  | some st => some st
  | none =>
      if src = some "attachment" ∧
          hasStep doc.workflowSections "attachment_processing" = true then
        some "attachment_processing"
      else resolveByStep doc.workflowSections stp

/-- Target resolution of the `result` handler: the open section, else the
section matching `data.step` (no attachment special case). -/
def resolveResultStep (doc : ChatState) (stp : Option String) : Option String :=
  match doc.currentSection with
  | some st => some st
  | none => resolveByStep doc.workflowSections stp

/-- The `log` handler's mutation of its target section: concatenate onto the
last entry when `newline === false` and a log exists, else push a new
entry. -/
def appendLog (content : String) (src : Option String) (nl : Option Bool)
    (s : Section) : Section :=
  if nl = some false ∧ s.logs ≠ [] then
    { s with logs :=
        updateLast (fun e => { e with content := e.content ++ content }) s.logs }
  else
    { s with logs := s.logs ++ [⟨content, src⟩] }

/-- The `result` handler's mutation of its target section: build the
`updates` object (results per incremental/replace/new, summary when truthy)
and merge it. -/
def applyResult (content : Option String) (dat : Option String)
    (sm : Option String) (inc : Bool) (s : Section) : Section :=
  let s1 :=
    match content with
    | none => s
    | some c =>
        if s.results = [] then { s with results := [⟨c, dat⟩] }
        else if inc then
          { s with results := updateLast (fun e => ⟨e.content ++ c, dat⟩) s.results }
        else
          { s with results := updateLast (fun _ => ⟨c, dat⟩) s.results }
  if truthy sm = true then { s1 with summary := sm.getD "" } else s1

/-- The token handler's per-section mutation: guarded by
`results.length > 0`, append to `updatedResults[0]`. -/
def tokenAppend (c : String) (s : Section) : Section :=
  if s.results ≠ [] then
    { s with results :=
        updateHead (fun e => { e with content := e.content ++ c }) s.results }
  else s

/-- The synthetic section the token handler lazily creates in workflow mode
when no section is open. -/
def finalReportSection : Section :=
  { step := "final_report", title := "📝 最终报告", collapsible := false,
    collapsed := false, logs := [], results := [⟨"", none⟩], summary := "" }

/-- The `attachment_processing` section `handleSend` pre-creates for
attachment-mode turns. -/
def attachmentSection : Section :=
  { step := "attachment_processing", title := "📎 附件处理", collapsible := true,
    collapsed := false, logs := [], results := [], summary := "" }

/-- The workflow branch of the token handler: lazily create/open
`final_report` when no section is open, then append to the first result
entry of the first section carrying the open step (only when it has one). -/
def applyTokenWorkflow (doc : ChatState) (c : String) : ChatState :=
  match doc.currentSection with
  | some st =>
      { doc with workflowSections :=
          applyAtFirstStep st (tokenAppend c) doc.workflowSections }
  | none =>
      { doc with
          workflowSections :=
            applyAtFirstStep "final_report" (tokenAppend c)
              (doc.workflowSections ++ [finalReportSection]),
          currentSection := some "final_report" }

/-- One step of the `handleSend` event loop (`data.type` dispatch).  Events
that only touch collaborators outside the document (`title_updated`, the
message toast of `error`, the refetch of `done`) keep their document effect
only. -/
def applySend (doc : ChatState) (e : Event) : ChatState :=
  match e with
  | .section_start st title cb =>
      { doc with
          workflowSections := doc.workflowSections ++
            [{ step := st, title := title,
               collapsible := match cb with | some false => false | _ => true,
               collapsed := false, logs := [], results := [], summary := "" }],
          currentSection := some st }
  | .section_end =>
      match doc.currentSection with
      | some st =>
          { doc with
              workflowSections :=
                applyAtFirstStep st (fun s => { s with collapsed := s.collapsible })
                  doc.workflowSections,
              currentSection := none }
      | none => { doc with currentSection := none }
  | .log c src stp nl =>
      match resolveLogStep doc src stp with
      | some st =>
          { doc with workflowSections :=
              applyAtFirstStep st (appendLog c src nl) doc.workflowSections }
      | none => doc
  | .result c d sm stp inc =>
      match resolveResultStep doc stp with
      | some st =>
          { doc with workflowSections :=
              applyAtFirstStep st (applyResult c d sm inc) doc.workflowSections }
      | none => doc
  | .token c =>
      if doc.isWorkflowMode then applyTokenWorkflow doc c
      else { doc with simpleResponse := doc.simpleResponse ++ c }
  | .done => { doc with workflowDone := true, isAITyping := false }
  | .error _ => { doc with workflowDone := true, isAITyping := false }
  | .title_updated _ _ => doc
  | .unknown => doc

/-- One step of the `reconnectStream` event loop.  Its handlers are
line-for-line those of `handleSend` except that `section_start` additionally
sets `isWorkflowMode = true`; `reconnectStream` has no `title_updated`
branch, but that coincides with the unknown-type no-op on the document. -/
def applyReconnect (doc : ChatState) (e : Event) : ChatState :=
  match e with
  | .section_start st title cb =>
      { applySend doc (.section_start st title cb) with isWorkflowMode := true }
  | e => applySend doc e

/-- The state `handleSend` sets up before reading the stream: clear
sections and flat buffer, fix `isWorkflowMode` from the request mode,
pre-create the attachment section for attachment turns. -/
def initSend (mode : Mode) : ChatState :=
  { workflowSections := if mode = .attachment then [attachmentSection] else [],
    simpleResponse := "",
    isWorkflowMode := match mode with | .multi_source => true | _ => false,
    currentSection := none,
    workflowDone := false,
    isAITyping := true }

/-- The resets `checkAndReconnect`/`reconnectStream` perform on the existing
component state before consuming the continuation stream (note
`isWorkflowMode` is not among them; `currentSection` is a fresh local). -/
def reconnectInit (prior : ChatState) : ChatState :=
  { prior with
      workflowSections := [],
      simpleResponse := "",
      currentSection := none,
      workflowDone := false,
      isAITyping := true }

/-- A whole `handleSend` turn over an already-decoded event list. -/
def runSend (mode : Mode) (evs : List Event) : ChatState :=
  evs.foldl applySend (initSend mode)

/-- A whole resumed turn: reset, then fold the continuation events. -/
def runResume (prior : ChatState) (evs : List Event) : ChatState :=
  evs.foldl applyReconnect (reconnectInit prior)

/-- JavaScript `chunk.split('\n')`: the segments between newline characters,
empties kept. -/
def splitLinesAux : List Char → List Char → List String
  | [], acc => [String.mk acc.reverse]
  | c :: cs, acc =>
      if c = '\n' then String.mk acc.reverse :: splitLinesAux cs []
      else splitLinesAux cs (c :: acc)

/-- `chunk.split('\n')` on a string. -/
def splitLines (s : String) : List String :=
  splitLinesAux s.data []

/-- One iteration of the `for (const line of lines)` body: only lines with
the literal prefix `data: ` carry a frame; the remainder goes through the
decoder (`JSON.parse` + type dispatch, abstracted as `dec`), and a decode
failure leaves the state untouched (the `catch` only logs). -/
def processLine (dec : String → Option Event) (doc : ChatState)
    (line : String) : ChatState :=
  if "data: ".data.isPrefixOf line.data then
    match dec (String.mk (line.data.drop 6)) with
    | some e => applySend doc e
    | none => doc
  else doc

/-- One network chunk as the loop body handles it: split into lines and fold
them.  No partial trailing line is carried over to the next chunk. -/
def processChunk (dec : String → Option Event) (doc : ChatState)
    (chunk : String) : ChatState :=
  (splitLines chunk).foldl (processLine dec) doc

/-- The whole read loop over the sequence of network chunks. -/
def processChunks (dec : String → Option Event) (doc : ChatState)
    (chunks : List String) : ChatState :=
  chunks.foldl (processChunk dec) doc

/-- A decoder for the single concrete frame used by the chunk-split
counterexample: the JSON payload `{"type": "token", "content": "Hi"}`. -/
def jsonTok : String := "\x7b\"type\": \"token\", \"content\": \"Hi\"\x7d"

/-- `JSON.parse` + dispatch restricted to the `jsonTok` frame. -/
def dec0 : String → Option Event :=
  fun s => if s = jsonTok then some (.token "Hi") else none

/-- Fixture: an open section with no logs and no results. -/
def secW : Section :=
  { step := "s", title := "t", collapsible := true, collapsed := false,
    logs := [], results := [], summary := "" }

/-- Fixture: section with one log entry `x`. -/
def secLog : Section :=
  { step := "s", title := "t", collapsible := true, collapsed := false,
    logs := [⟨"x", none⟩], results := [], summary := "" }

/-- Fixture: section with one result entry `r`. -/
def secRes : Section :=
  { step := "s", title := "t", collapsible := true, collapsed := false,
    logs := [], results := [⟨"r", none⟩], summary := "" }

/-- Fixture: a workflow-mode state with one open section. -/
def docW : ChatState :=
  { workflowSections := [secW], simpleResponse := "", isWorkflowMode := true,
    currentSection := some "s", workflowDone := false, isAITyping := true }

/-- Fixture: like `docW` but the open section already has one log entry. -/
def docLog : ChatState :=
  { workflowSections := [secLog], simpleResponse := "", isWorkflowMode := true,
    currentSection := some "s", workflowDone := false, isAITyping := true }

/-- Fixture: like `docW` but the open section already has one result entry. -/
def docRes : ChatState :=
  { workflowSections := [secRes], simpleResponse := "", isWorkflowMode := true,
    currentSection := some "s", workflowDone := false, isAITyping := true }

/-- Fixture: first of two sections sharing the step `s`. -/
def secDupA : Section :=
  { step := "s", title := "first", collapsible := true, collapsed := false,
    logs := [], results := [⟨"r", none⟩], summary := "" }

/-- Fixture: second of two sections sharing the step `s` (the one most
recently opened). -/
def secDupB : Section :=
  { step := "s", title := "second", collapsible := false, collapsed := false,
    logs := [], results := [], summary := "" }

/-- Fixture: a workflow state holding two sections with the same step, the
later one being the open one. -/
def docDup : ChatState :=
  { workflowSections := [secDupA, secDupB], simpleResponse := "",
    isWorkflowMode := true, currentSection := some "s", workflowDone := false,
    isAITyping := true }

/-- Fixture: a leftover flat-mode state from an interrupted earlier turn. -/
def priorDoc : ChatState :=
  { workflowSections := [secW], simpleResponse := "old", isWorkflowMode := false,
    currentSection := none, workflowDone := false, isAITyping := false }

lemma applyAtFirstStep_of_first (st : String) (f : Section → Section)
    (pre rest : List Section) (s0 : Section)
    (hpre : ∀ x ∈ pre, x.step ≠ st) (h0 : s0.step = st) :
    applyAtFirstStep st f (pre ++ s0 :: rest) = pre ++ f s0 :: rest := by
  induction pre with
  | nil => simp [applyAtFirstStep, h0]
  | cons a tl ih =>
      have ha : ¬ a.step = st := hpre a (List.mem_cons_self a tl)
      simp only [List.cons_append, applyAtFirstStep, if_neg ha]
      exact congrArg (List.cons a) (ih (fun x hx => hpre x (List.mem_cons_of_mem a hx)))

lemma updateLast_append (f : α → α) (ls : List α) (e : α) :
    updateLast f (ls ++ [e]) = ls ++ [f e] := by
  induction ls with
  | nil => rfl
  | cons a tl ih =>
      cases tl with
      | nil => rfl
      | cons b tl2 => simpa [updateLast] using ih

lemma applySend_isWorkflowMode (doc : ChatState) (e : Event) :
    (applySend doc e).isWorkflowMode = doc.isWorkflowMode := by
  cases e with
  | section_start st t cb => rfl
  | section_end => cases h : doc.currentSection <;> simp [applySend, h]
  | log c src stp nl =>
      cases h : resolveLogStep doc src stp <;> simp [applySend, h]
  | result c d sm stp inc =>
      cases h : resolveResultStep doc stp <;> simp [applySend, h]
  | token c =>
      by_cases h : doc.isWorkflowMode
      · simp only [applySend, h, if_true]
        cases h2 : doc.currentSection <;> simp [applyTokenWorkflow, h2, h]
      · simp [applySend, h]
  | done => rfl
  | error c => rfl
  | title_updated a b => rfl
  | unknown => rfl

lemma applySend_simpleResponse_of_workflow (doc : ChatState) (e : Event)
    (h : doc.isWorkflowMode = true) :
    (applySend doc e).simpleResponse = doc.simpleResponse := by
  cases e with
  | section_start st t cb => rfl
  | section_end => cases h2 : doc.currentSection <;> simp [applySend, h2]
  | log c src stp nl =>
      cases h2 : resolveLogStep doc src stp <;> simp [applySend, h2]
  | result c d sm stp inc =>
      cases h2 : resolveResultStep doc stp <;> simp [applySend, h2]
  | token c =>
      simp only [applySend, h, if_true]
      cases h2 : doc.currentSection <;> simp [applyTokenWorkflow, h2]
  | done => rfl
  | error c => rfl
  | title_updated a b => rfl
  | unknown => rfl

lemma string_empty_append (s : String) : "" ++ s = s := by
  cases s; rfl

/-- C1: the read loop splits each network chunk into lines on its own,
carrying no partial trailing line over to the next chunk; a `data: <json>`
frame whose bytes are split across two chunks is therefore dropped, while the
same bytes arriving in a single chunk decode to a token event.  This refutes
the claimed reassembly and exhibits the divergence at a concrete stream. -/
theorem c1_chunk_split_loses_frame :
    (processChunks dec0 (initSend .normal)
        ["data: " ++ jsonTok ++ "\n"]).simpleResponse = "Hi" ∧
    (processChunks dec0 (initSend .normal)
        ["data", ": " ++ jsonTok ++ "\n"]).simpleResponse = "" ∧
    processChunks dec0 (initSend .normal) ["data", ": " ++ jsonTok ++ "\n"] ≠
      processChunks dec0 (initSend .normal) ["data: " ++ jsonTok ++ "\n"] := by
  decide

/-- C2 (counterexample): a turn started with request mode `attachment` is in
flat mode, yet its sections list is non-empty from the very start — the
pre-created `attachment_processing` section refutes "the sections list stays
empty" in flat mode. -/
theorem c2_counterexample :
    (initSend .attachment).isWorkflowMode = false ∧
    (initSend .attachment).workflowSections ≠ [] := by
  decide

/-- C2 (amended): in flat mode every `token` event's content is appended to
the flat buffer and leaves the sections untouched (though the sections list
need not be empty); in workflow mode the flat buffer stays empty for the
whole turn. -/
theorem c2_mode_content_separation (doc : ChatState) (c : String)
    (evs : List Event) (hflat : doc.isWorkflowMode = false) :
    (applySend doc (.token c)).simpleResponse = doc.simpleResponse ++ c ∧
    (applySend doc (.token c)).workflowSections = doc.workflowSections ∧
    (runSend .multi_source evs).simpleResponse = "" := by
  refine ⟨by simp [applySend, hflat], by simp [applySend, hflat], ?_⟩
  have key : ∀ (l : List Event) (d : ChatState), d.isWorkflowMode = true →
      d.simpleResponse = "" → (l.foldl applySend d).simpleResponse = "" := by
    intro l
    induction l with
    | nil => intro d _ h2; simpa using h2
    | cons e tl ih =>
        intro d h1 h2
        refine ih _ (by rw [applySend_isWorkflowMode]; exact h1) ?_
        rw [applySend_simpleResponse_of_workflow _ _ h1]; exact h2
  exact key evs (initSend .multi_source) rfl rfl

theorem c2_mode_content_separation_witness :
    (applySend (initSend .normal) (.token "Hi")).simpleResponse =
      (initSend .normal).simpleResponse ++ "Hi" ∧
    (applySend (initSend .normal) (.token "Hi")).workflowSections =
      (initSend .normal).workflowSections ∧
    (runSend .multi_source [.token "x"]).simpleResponse = "" :=
  c2_mode_content_separation (initSend .normal) "Hi" [.token "x"] rfl

/-- C4 (counterexample): in a new turn started with mode `normal` the
`section_start` handler of `handleSend` appends the section but never sets
`isWorkflowMode`, so the mode does not become workflow. -/
theorem c4_counterexample :
    (runSend .normal [.section_start "s" "t" none]).isWorkflowMode = false ∧
    (runSend .normal [.section_start "s" "t" none]).workflowSections ≠ [] := by
  decide

/-- C4 (amended): in a turn driven by `handleSend` the mode chosen at turn
start stays fixed — no event, `section_start` included, changes it; only in a
resumed turn (`reconnectStream`) does `section_start` force workflow mode. -/
theorem c4_mode_fixed_per_turn (doc : ChatState) (e : Event) (st t : String)
    (cb : Option Bool) :
    (applySend doc e).isWorkflowMode = doc.isWorkflowMode ∧
    (applyReconnect doc (.section_start st t cb)).isWorkflowMode = true :=
  ⟨applySend_isWorkflowMode doc e, rfl⟩

/-- C8: resuming a generating message resets the document to empty — no
sections, empty flat buffer — before the first continuation event is applied,
and the resumed run depends only on the events received after the resume
point (any two prior states that agree on the untouched `isWorkflowMode` flag
yield the same document). -/
theorem c8_resume_resets (p p' : ChatState) (evs : List Event)
    (hmode : p.isWorkflowMode = p'.isWorkflowMode) :
    (reconnectInit p).workflowSections = [] ∧
    (reconnectInit p).simpleResponse = "" ∧
    runResume p evs = runResume p' evs := by
  refine ⟨rfl, rfl, ?_⟩
  have h : reconnectInit p = reconnectInit p' := by
    cases p; cases p'; simp_all [reconnectInit]
  simp [runResume, h]

theorem c8_resume_resets_witness :
    (reconnectInit priorDoc).workflowSections = [] ∧
    (reconnectInit priorDoc).simpleResponse = "" ∧
    runResume priorDoc [.token "a"] = runResume (initSend .normal) [.token "a"] :=
  c8_resume_resets priorDoc (initSend .normal) [.token "a"] rfl

/-- C9: a line carrying the `data: ` prefix whose remainder fails to decode
leaves the document unchanged, and the line loop simply continues with the
remaining lines — one bad frame never terminates the event sequence. -/
theorem c9_bad_frame_skipped (dec : String → Option Event) (doc : ChatState)
    (line : String) (rest : List String)
    (hpref : "data: ".data.isPrefixOf line.data = true)
    (hbad : dec (String.mk (line.data.drop 6)) = none) :
    processLine dec doc line = doc ∧
    List.foldl (processLine dec) doc (line :: rest) =
      List.foldl (processLine dec) doc rest := by
  have h1 : processLine dec doc line = doc := by
    simp [processLine, hpref, hbad]
  exact ⟨h1, by simp [List.foldl_cons, h1]⟩

/-- C7: `section_end` with an open section sets that section's `collapsed`
flag to its `collapsible` flag and clears the open pointer; with no open
section it is a no-op; and applying it twice in a row equals applying it
once. -/
theorem c7_section_end_semantics (doc : ChatState) (st : String)
    (pre post : List Section) (s0 : Section) :
    (doc.currentSection = some st →
      doc.workflowSections = pre ++ s0 :: post →
      (∀ x ∈ pre, x.step ≠ st) → s0.step = st →
      applySend doc .section_end =
        { doc with
            workflowSections :=
              pre ++ { s0 with collapsed := s0.collapsible } :: post,
            currentSection := none }) ∧
    (doc.currentSection = none → applySend doc .section_end = doc) ∧
    applySend (applySend doc .section_end) .section_end =
      applySend doc .section_end := by
  refine ⟨?_, ?_, ?_⟩
  · intro hopen hdoc hpre h0
    simp only [applySend, hopen, hdoc]
    rw [applyAtFirstStep_of_first st _ pre post s0 hpre h0]
  · intro hnone
    simp only [applySend, hnone]
    rw [← hnone]
  · have h2 : (applySend doc .section_end).currentSection = none := by
      cases h : doc.currentSection <;> simp [applySend, h]
    have h3 : ∀ d : ChatState, d.currentSection = none →
        applySend d .section_end = d := by
      intro d hd
      simp only [applySend, hd]
      rw [← hd]
    exact h3 _ h2

theorem c7_section_end_semantics_witness :
    applySend docW .section_end =
      { docW with
          workflowSections := [] ++ { secW with collapsed := secW.collapsible } :: [],
          currentSection := none } :=
  (c7_section_end_semantics docW "s" [] [] secW).1 rfl rfl (by simp) rfl

/-- C10: every in-place section mutation — the `section_end` collapse, the
`log` append, the `result` update and the `token` append — rewrites the
first section of the array whose step equals the target step; in a document
where an earlier section shares its step with the open one, the earlier
section receives the mutation and the open (later) one is untouched. -/
theorem c10_first_match_aliasing (doc : ChatState) (st c : String)
    (pre mid post : List Section) (sA sB : Section)
    (hdoc : doc.workflowSections = pre ++ sA :: (mid ++ sB :: post))
    (hpre : ∀ x ∈ pre, x.step ≠ st) (hA : sA.step = st) (_hB : sB.step = st)
    (hopen : doc.currentSection = some st) :
    (applySend doc .section_end).workflowSections =
      pre ++ { sA with collapsed := sA.collapsible } :: (mid ++ sB :: post) ∧
    (applySend doc (.log c none none (some false))).workflowSections =
      pre ++ appendLog c none (some false) sA :: (mid ++ sB :: post) ∧
    (applySend doc (.result (some c) none none none false)).workflowSections =
      pre ++ applyResult (some c) none none false sA :: (mid ++ sB :: post) ∧
    (doc.isWorkflowMode = true →
      (applySend doc (.token c)).workflowSections =
        pre ++ tokenAppend c sA :: (mid ++ sB :: post)) := by
  refine ⟨?_, ?_, ?_, ?_⟩
  · simp only [applySend, hopen, hdoc]
    rw [applyAtFirstStep_of_first st _ pre _ sA hpre hA]
  · simp only [applySend, resolveLogStep, hopen, hdoc]
    rw [applyAtFirstStep_of_first st _ pre _ sA hpre hA]
  · simp only [applySend, resolveResultStep, hopen, hdoc]
    rw [applyAtFirstStep_of_first st _ pre _ sA hpre hA]
  · intro hwf
    simp only [applySend, hwf, if_true, applyTokenWorkflow, hopen, hdoc]
    rw [applyAtFirstStep_of_first st _ pre _ sA hpre hA]

theorem c10_first_match_aliasing_witness :
    (applySend docDup .section_end).workflowSections =
      [] ++ { secDupA with collapsed := secDupA.collapsible } :: ([] ++ secDupB :: []) ∧
    (applySend docDup (.log "x" none none (some false))).workflowSections =
      [] ++ appendLog "x" none (some false) secDupA :: ([] ++ secDupB :: []) ∧
    (applySend docDup (.result (some "x") none none none false)).workflowSections =
      [] ++ applyResult (some "x") none none false secDupA :: ([] ++ secDupB :: []) ∧
    (applySend docDup (.token "x")).workflowSections =
      [] ++ tokenAppend "x" secDupA :: ([] ++ secDupB :: []) := by
  have h := c10_first_match_aliasing docDup "s" "x" [] [] [] secDupA secDupB
    rfl (by simp) rfl rfl rfl
  exact ⟨h.1, h.2.1, h.2.2.1, h.2.2.2 rfl⟩

/-- C6: a `log` event resolves its target section in priority order — the
open section, then (for `attachment` sources) the `attachment_processing`
section, then the section matching the event's step — and is dropped without
mutating the document when nothing resolves; on the resolved target,
`newline === false` with an existing log entry concatenates onto the last
entry, anything else appends a fresh entry; the spec's `xab` scenario
holds. -/
theorem c6_log_semantics (doc : ChatState) (c : String) (src stp : Option String)
    (nl : Option Bool) (st stv : String) (pre post : List Section) (s0 : Section)
    (ls : List LogEntry) (e0 : LogEntry) :
    (doc.currentSection = some st → resolveLogStep doc src stp = some st) ∧
    (doc.currentSection = none → src = some "attachment" →
      hasStep doc.workflowSections "attachment_processing" = true →
      resolveLogStep doc src stp = some "attachment_processing") ∧
    (doc.currentSection = none →
      (src ≠ some "attachment" ∨
        hasStep doc.workflowSections "attachment_processing" = false) →
      stp = some stv → stv ≠ "" → hasStep doc.workflowSections stv = true →
      resolveLogStep doc src stp = some stv) ∧
    (resolveLogStep doc src stp = none →
      applySend doc (.log c src stp nl) = doc) ∧
    (resolveLogStep doc src stp = some st →
      doc.workflowSections = pre ++ s0 :: post →
      (∀ x ∈ pre, x.step ≠ st) → s0.step = st →
      applySend doc (.log c src stp nl) =
        { doc with workflowSections :=
            pre ++ appendLog c src nl s0 :: post }) ∧
    (nl = some false → s0.logs = ls ++ [e0] →
      (appendLog c src nl s0).logs =
        ls ++ [{ e0 with content := e0.content ++ c }]) ∧
    (s0.logs = [] → (appendLog c src nl s0).logs = [⟨c, src⟩]) ∧
    ((runSend .multi_source
        [.section_start "s" "t" none, .log "x" none none none,
         .log "a" none none (some false),
         .log "b" none none (some false)]).workflowSections.map
      (fun s => s.logs)) = [[⟨"xab", none⟩]] := by
  refine ⟨?_, ?_, ?_, ?_, ?_, ?_, ?_, by decide⟩
  · intro hopen; simp [resolveLogStep, hopen]
  · intro hnone hsrc hhas
    simp [resolveLogStep, hnone, hsrc, hhas]
  · intro hnone hsrc hstp hne hhas
    have hcond : ¬ (src = some "attachment" ∧
        hasStep doc.workflowSections "attachment_processing" = true) := by
      rcases hsrc with h | h
      · exact fun hc => h hc.1
      · exact fun hc => by rw [h] at hc; exact Bool.false_ne_true hc.2
    simp [resolveLogStep, resolveByStep, hnone, hcond, hstp, hne, hhas]
  · intro hres
    simp [applySend, hres]
  · intro hres hdoc hpre h0
    simp only [applySend, hres, hdoc]
    rw [applyAtFirstStep_of_first st _ pre post s0 hpre h0]
  · intro hnl hlogs
    simp [appendLog, hnl, hlogs, updateLast_append]
  · intro hlogs
    have : ¬ (nl = some false ∧ s0.logs ≠ []) := by
      rintro ⟨-, hn⟩; exact hn hlogs
    simp [appendLog, this, hlogs]

theorem c6_log_semantics_witness :
    resolveLogStep docLog none none = some "s" ∧
    applySend docLog (.log "a" none none (some false)) =
      { docLog with workflowSections :=
          [] ++ appendLog "a" none (some false) secLog :: [] } ∧
    (appendLog "a" none (some false) secLog).logs =
      [] ++ [{ (⟨"x", none⟩ : LogEntry) with content := "x" ++ "a" }] ∧
    ((runSend .multi_source
        [.section_start "s" "t" none, .log "x" none none none,
         .log "a" none none (some false),
         .log "b" none none (some false)]).workflowSections.map
      (fun s => s.logs)) = [[⟨"xab", none⟩]] := by
  have h := c6_log_semantics docLog "a" none none (some false) "s" "s"
    [] [] secLog [] ⟨"x", none⟩
  exact ⟨h.1 rfl, h.2.2.2.2.1 (h.1 rfl) rfl (by simp) rfl,
    h.2.2.2.2.2.1 rfl rfl, h.2.2.2.2.2.2.2⟩

/-- C5 (counterexample): the `result` handler applies a summary only when it
is truthy — a present-but-empty summary does not overwrite.  After a summary
`"x"`, a `result` event carrying the present summary `""` leaves the
section's summary `"x"`, where the claim demands it be overwritten to
`""`. -/
theorem c5_counterexample :
    ((runSend .multi_source
        [.section_start "s" "t" none,
         .result none none (some "x") none false,
         .result none none (some "") none false]).workflowSections.map
      (fun s => s.summary)) = ["x"] := by
  decide

/-- C5 (amended): a `result` event resolves its target like `log` but with
no attachment special case; a present **non-empty** summary overwrites the
section's summary; defined content is appended as a new entry when the
section has no results, concatenated onto the last entry (data replaced)
when `is_incremental`, and replaces the last entry wholesale otherwise —
so `foo` then `bar` non-incrementally leaves `"bar"`, incrementally
`"foobar"`. -/
theorem c5_result_semantics (doc : ChatState) (st stv c : String)
    (d sm stp : Option String) (inc : Bool) (pre post : List Section)
    (s0 : Section) (rs : List ResultEntry) (e0 : ResultEntry) :
    (doc.currentSection = some st → resolveResultStep doc stp = some st) ∧
    (doc.currentSection = none → stp = some stv → stv ≠ "" →
      hasStep doc.workflowSections stv = true →
      resolveResultStep doc stp = some stv) ∧
    (doc.currentSection = none → resolveResultStep doc none = none) ∧
    (resolveResultStep doc stp = none →
      applySend doc (.result (some c) d sm stp inc) = doc) ∧
    (resolveResultStep doc stp = some st →
      doc.workflowSections = pre ++ s0 :: post →
      (∀ x ∈ pre, x.step ≠ st) → s0.step = st →
      applySend doc (.result (some c) d sm stp inc) =
        { doc with workflowSections :=
            pre ++ applyResult (some c) d sm inc s0 :: post }) ∧
    (∀ str : String, str ≠ "" →
      (applyResult none d (some str) inc s0).summary = str) ∧
    (s0.results = [] → sm = none →
      applyResult (some c) d sm inc s0 = { s0 with results := [⟨c, d⟩] }) ∧
    (s0.results = rs ++ [e0] → sm = none →
      (applyResult (some c) d sm true s0).results =
        rs ++ [⟨e0.content ++ c, d⟩]) ∧
    (s0.results = rs ++ [e0] → sm = none →
      (applyResult (some c) d sm false s0).results = rs ++ [⟨c, d⟩]) ∧
    ((runSend .multi_source
        [.section_start "s" "t" none,
         .result (some "foo") none none none false,
         .result (some "bar") none none none false]).workflowSections.map
      (fun x => x.results)) = [[⟨"bar", none⟩]] ∧
    ((runSend .multi_source
        [.section_start "s" "t" none,
         .result (some "foo") none none none false,
         .result (some "bar") none none none true]).workflowSections.map
      (fun x => x.results)) = [[⟨"foobar", none⟩]] := by
  refine ⟨?_, ?_, ?_, ?_, ?_, ?_, ?_, ?_, ?_, by decide, by decide⟩
  · intro hopen; simp [resolveResultStep, hopen]
  · intro hnone hstp hne hhas
    simp [resolveResultStep, resolveByStep, hnone, hstp, hne, hhas]
  · intro hnone; simp [resolveResultStep, resolveByStep, hnone]
  · intro hres; simp [applySend, hres]
  · intro hres hdoc hpre h0
    simp only [applySend, hres, hdoc]
    rw [applyAtFirstStep_of_first st _ pre post s0 hpre h0]
  · intro str hne
    simp [applyResult, truthy, hne]
  · intro hres hsm
    simp [applyResult, hres, hsm, truthy]
  · intro hres hsm
    simp [applyResult, hres, hsm, truthy, updateLast_append]
  · intro hres hsm
    simp [applyResult, hres, hsm, truthy, updateLast_append]

theorem c5_result_semantics_witness :
    resolveResultStep docRes none = some "s" ∧
    applySend docRes (.result (some "z") (some "D") none none true) =
      { docRes with workflowSections :=
          [] ++ applyResult (some "z") (some "D") none true secRes :: [] } ∧
    (applyResult (some "z") (some "D") none true secRes).results =
      [] ++ [⟨"r" ++ "z", some "D"⟩] ∧
    (applyResult none (some "D") (some "S") true secRes).summary = "S" := by
  have h := c5_result_semantics docRes "s" "s" "z" (some "D") none none true
    [] [] secRes [] ⟨"r", none⟩
  exact ⟨h.1 rfl, h.2.2.2.2.1 (h.1 rfl) rfl (by simp) rfl,
    h.2.2.2.2.2.2.2.1 rfl rfl, h.2.2.2.2.2.1 "S" (by decide)⟩

/-- C3 (counterexample): in workflow mode, a `token` arriving while the open
section has no result entries is silently dropped — no empty entry is
created and no content is appended; the whole document is unchanged, where
the claim demands an entry holding the content. -/
theorem c3_counterexample :
    runSend .multi_source [.section_start "s" "t" none, .token "x"] =
      runSend .multi_source [.section_start "s" "t" none] ∧
    ((runSend .multi_source
        [.section_start "s" "t" none, .token "x"]).workflowSections.map
      (fun s => s.results)) = [[]] := by
  decide

/-- C3 (amended): in workflow mode, a `token` with no open section lazily
creates and opens a synthetic `final_report` section (`collapsible = false`,
one result entry) holding the content; with an open section, the content is
appended to the **first** result entry of the first section carrying the open
step when it has at least one entry, and is dropped when it has none. -/
theorem c3_token_semantics (doc : ChatState) (c st : String)
    (pre post : List Section) (s0 : Section) (r0 : ResultEntry)
    (rs : List ResultEntry) (hwf : doc.isWorkflowMode = true) :
    (doc.currentSection = none →
      hasStep doc.workflowSections "final_report" = false →
      applySend doc (.token c) =
        { doc with
            workflowSections := doc.workflowSections ++
              [{ finalReportSection with results := [⟨c, none⟩] }],
            currentSection := some "final_report" }) ∧
    (doc.currentSection = some st →
      doc.workflowSections = pre ++ s0 :: post →
      (∀ x ∈ pre, x.step ≠ st) → s0.step = st →
      s0.results = r0 :: rs →
      applySend doc (.token c) =
        { doc with workflowSections :=
            pre ++ { s0 with
              results := { r0 with content := r0.content ++ c } :: rs } :: post }) ∧
    (doc.currentSection = some st →
      doc.workflowSections = pre ++ s0 :: post →
      (∀ x ∈ pre, x.step ≠ st) → s0.step = st →
      s0.results = [] →
      applySend doc (.token c) = doc) := by
  refine ⟨?_, ?_, ?_⟩
  · intro hnone hfr
    have hne : ∀ x ∈ doc.workflowSections, x.step ≠ "final_report" := by
      intro x hx hcontra
      have : hasStep doc.workflowSections "final_report" = true := by
        simp only [hasStep, List.any_eq_true]
        exact ⟨x, hx, by simp [hcontra]⟩
      rw [hfr] at this
      exact Bool.false_ne_true this
    simp only [applySend, hwf, if_true, applyTokenWorkflow, hnone]
    rw [applyAtFirstStep_of_first "final_report" _ doc.workflowSections []
      finalReportSection hne rfl]
    have htok : tokenAppend c finalReportSection =
        { finalReportSection with results := [⟨c, none⟩] } := by
      simp [tokenAppend, finalReportSection, updateHead, string_empty_append]
    rw [htok]
  · intro hopen hdoc hpre h0 hres
    simp only [applySend, hwf, if_true, applyTokenWorkflow, hopen, hdoc]
    rw [applyAtFirstStep_of_first st _ pre post s0 hpre h0]
    have htok : tokenAppend c s0 =
        { s0 with results := { r0 with content := r0.content ++ c } :: rs } := by
      simp [tokenAppend, hres, updateHead]
    rw [htok]
  · intro hopen hdoc hpre h0 hres
    simp only [applySend, hwf, if_true, applyTokenWorkflow, hopen, hdoc]
    rw [applyAtFirstStep_of_first st _ pre post s0 hpre h0]
    have htok : tokenAppend c s0 = s0 := by
      simp [tokenAppend, hres]
    rw [htok, ← hdoc, ← hwf, ← hopen]

theorem c3_token_semantics_witness :
    applySend (initSend .multi_source) (.token "x") =
      { initSend .multi_source with
          workflowSections := (initSend .multi_source).workflowSections ++
            [{ finalReportSection with results := [⟨"x", none⟩] }],
          currentSection := some "final_report" } ∧
    applySend docRes (.token "x") =
      { docRes with workflowSections :=
          [] ++ { secRes with
            results := { (⟨"r", none⟩ : ResultEntry) with
              content := "r" ++ "x" } :: [] } :: [] } ∧
    applySend docW (.token "x") = docW := by
  refine ⟨?_, ?_, ?_⟩
  · exact (c3_token_semantics (initSend .multi_source) "x" "s" [] [] secW
      ⟨"r", none⟩ [] rfl).1 rfl rfl
  · exact (c3_token_semantics docRes "x" "s" [] [] secRes
      ⟨"r", none⟩ [] rfl).2.1 rfl rfl (by simp) rfl rfl
  · exact (c3_token_semantics docW "x" "s" [] [] secW
      ⟨"r", none⟩ [] rfl).2.2 rfl rfl (by simp) rfl rfl

theorem c9_bad_frame_skipped_witness :
    processLine (fun _ => none) (initSend .normal) "data: not json" =
      initSend .normal ∧
    List.foldl (processLine (fun _ => none)) (initSend .normal)
        ["data: not json"] =
      List.foldl (processLine (fun _ => none)) (initSend .normal) [] :=
  c9_bad_frame_skipped (fun _ => none) (initSend .normal) "data: not json" []
    (by decide) rfl

end ChatStream
